import Mathlib

/-!
# Shallow embedding of the agent-land repository

This file embeds, in Lean 4, the parts of the repository that the
verified properties refer to:

* `src/src/tools/data_tools.py` — the `DataTools` record-processing
  methods (`load_json_data`, `summarize_data`, `calculate_column_stats`,
  `filter_data`, `group_data`, `aggregate_data`);
* `src/src/utils/helpers.py` — `RetryConfig` and `retry_async`;
* `src/src/utils/agent_builder.py` — `DynamicAgent` construction,
  `AgentBuilder._save_agent_config` and `AgentBuilder.load_agent`;
* `src/playground.py` — the `AgentPlayground` state, `log_interaction`,
  `clear_history`, and the history effect of every slash command of the
  REPL dispatch loop.

Python scalar values are modelled by the inductive `Value`: Python
`int` as `Int`, Python `float` as `ℚ` (exact-arithmetic model of the
float computations, which in the source never leave +,-,*,/ except for
one square root, see `DataStats.std_sq`), `bool`, `str`, and `None`.
Python dictionaries are modelled as association lists in insertion
order (Python 3.7+ dicts preserve insertion order); dictionary keys are
unique in every dictionary the source builds.
-/

/-- A flat Python scalar value, as stored in the tabular records that
`DataTools` processes. -/
inductive Value where
  | intV (n : Int)
  | floatV (q : ℚ)
  | boolV (b : Bool)
  | strV (s : String)
  | noneV
deriving DecidableEq, Repr

/-- A tabular record: a flat Python dict in insertion order
(`Dict[str, Any]` with scalar values). -/
def Record : Type := List (String × Value)

instance : DecidableEq Record := by
  unfold Record
  infer_instance

/-- Association-list lookup, first match wins: Python `d[k]` /
`k in d` on dicts (whose keys are unique). -/
def alookup {α : Type} : List (String × α) → String → Option α
  | [], _ => none
  | (k, v) :: rest, c => if k = c then some v else alookup rest c

/-- Python `isinstance(v, (int, float))`.  Note that Python `bool` is a
subclass of `int`, so booleans pass this check. -/
def isNumeric : Value → Bool
  | .intV _ => true
  | .floatV _ => true
  | .boolV _ => true
  | _ => false

/-- Python `float(v)` on a value passing `isinstance(v, (int, float))`
(never raises there). -/
def toQ : Value → ℚ
  | .intV n => (n : ℚ)
  | .floatV q => q
  | .boolV b => if b then 1 else 0
  | _ => 0

/-- Python `==` between scalar values: numeric kinds (`int`, `float`,
`bool`) compare by numeric value, other kinds by kind and content. -/
def pyEq : Value → Value → Bool
  | .strV s, .strV t => s = t
  | .noneV, .noneV => true
  | .strV _, _ => false
  | _, .strV _ => false
  | .noneV, _ => false
  | _, .noneV => false
  | a, b => toQ a = toQ b

/-- Python `str(v)` for the scalar values.  The precise rendering of a
float does not matter to any property below; only that the function is
a fixed map on values. -/
def pyStr : Value → String
  | .intV n => toString n
  | .floatV q => toString q
  | .boolV b => if b then "True" else "False"
  | .strV s => s
  | .noneV => "None"

/-! ## `DataTools` (src/src/tools/data_tools.py) -/

/-- Output model of `DataSummary` (pydantic model in the source). -/
structure DataSummary where
  total_records : Nat
  columns : List String
  data_types : List (String × String)
  missing_values : List (String × Nat)
  sample_data : List Record
deriving DecidableEq

/-- Output model of `DataStats` (pydantic model in the source).

The source stores `stats.std = variance ** 0.5`.  The model works in
exact rational arithmetic, where the square root does not exist, so the
field `std_sq` carries the radicand: `std_sq = variance`, and the
source's `std` is exactly the square root of `std_sq`.  All other
fields are carried as in the source. -/
structure DataStats where
  column : String
  count : Nat
  unique_count : Nat
  mean : Option ℚ := none
  median : Option ℚ := none
  std_sq : Option ℚ := none
  min : Option ℚ := none
  max : Option ℚ := none
  quartiles : Option (List ℚ) := none
deriving DecidableEq

/-- The values of `column` across `data`, skipping records where the
column is absent or `None` (the `values` list of
`calculate_column_stats`, and of `summarize_data`'s per-column scan). -/
def columnValues (data : List Record) (column : String) : List Value :=
  data.filterMap fun r =>
    match alookup r column with
    | some v => if v = .noneV then none else some v
    | none => none

/-- Number of records of `data` in which `column` is absent or `None`
(`missing_count` in `summarize_data`). -/
def missingCount (data : List Record) (column : String) : Nat :=
  (data.filter fun r =>
    match alookup r column with
    | some v => v = .noneV
    | none => true).length

/-- Python type-name dispatch of `summarize_data` (bool is checked
before int, as in the source). -/
def typeName : Value → String
  | .boolV _ => "boolean"
  | .intV _ => "integer"
  | .floatV _ => "float"
  | .strV _ => "string"
  | .noneV => "object"

/-- The keys of every record of `data`, in scan order, with repeats
(`all_columns` before the `set` is taken). -/
def collectKeys (data : List Record) : List String :=
  data.foldl (fun acc r => acc ++ r.map Prod.fst) []

/-- `sorted(list(set(all_columns)))` of `summarize_data`. -/
def sortedColumns (data : List Record) : List String :=
  List.insertionSort (· ≤ ·) (collectKeys data).dedup

/-- `DataTools.summarize_data` (data_tools.py lines 65–126). -/
def summarize_data (data : List Record) (sample_size : Nat) : DataSummary :=
  match data with
  | [] => ⟨0, [], [], [], []⟩
  | _ :: _ =>
    let columns := sortedColumns data
    { total_records := data.length
      columns := columns
      data_types := columns.map fun c =>
        (c, match (columnValues data c).head? with
            | some v => typeName v
            | none => "unknown")
      missing_values := columns.map fun c => (c, missingCount data c)
      sample_data := data.take sample_size }

/-- Number of distinct values of a list under Python `==` (the
`len(set(values))` of `calculate_column_stats`; Python sets identify
`1`, `1.0` and `True`). -/
def uniqueCount (vs : List Value) : Nat :=
  (vs.foldl (fun acc v => if acc.any (pyEq v) then acc else acc ++ [v]) []).length

/-- `min` of a nonempty list of rationals (0 on the empty list, which
the source never reaches). -/
def listMin : List ℚ → ℚ
  | [] => 0
  | x :: xs => xs.foldl min x

/-- `max` of a nonempty list of rationals (0 on the empty list, which
the source never reaches). -/
def listMax : List ℚ → ℚ
  | [] => 0
  | x :: xs => xs.foldl max x

/-- `DataTools.calculate_column_stats` (data_tools.py lines 128–184).

The `except (ValueError, TypeError)` branch of the source is
unreachable: `float(v)` is applied only to values passing
`isinstance(v, (int, float))` and cannot raise there, and the numeric
block is guarded by `if numeric_values:`; so the model has no
exceptional branch. -/
def calculate_column_stats (data : List Record) (column : String) :
    Option DataStats :=
  match data with
  | [] => none
  | r0 :: _ =>
    if (alookup r0 column).isSome then
      let values := columnValues data column
      if values.isEmpty then none
      else
        let numeric := (values.filter isNumeric).map toQ
        let base : DataStats :=
          { column := column, count := values.length,
            unique_count := uniqueCount values }
        if numeric.isEmpty then some base
        else
          let s := List.insertionSort (· ≤ ·) numeric
          let n := s.length
          let mean := s.sum / (n : ℚ)
          let median :=
            if n % 2 = 1 then s.getD (n / 2) 0
            else (s.getD (n / 2 - 1) 0 + s.getD (n / 2) 0) / 2
          let variance := (s.map fun x => (x - mean) ^ 2).sum / (n : ℚ)
          some { base with
            mean := some mean
            median := some median
            std_sq := some variance
            min := some (listMin s)
            max := some (listMax s)
            quartiles := some [s.getD (n / 4) 0, median,
              if 3 * n / 4 < n then s.getD (3 * n / 4) 0 else s.getD (n - 1) 0] }
    else none

/-- The inner condition loop of `filter_data`: `True` iff every
`(column, condition_value)` pair is present in the record with an
`==`-equal value (the source breaks at the first failure). -/
def condMatches (r : Record) : List (String × Value) → Bool
  | [] => true
  | (c, cv) :: rest =>
    match alookup r c with
    | none => false
    | some rv => if pyEq rv cv then condMatches r rest else false

/-- `DataTools.filter_data` (data_tools.py lines 186–208): appends each
matching record to `filtered_data` in scan order. -/
def filter_data (data : List Record) (conditions : List (String × Value)) :
    List Record :=
  data.foldl (fun acc r => if condMatches r conditions then acc ++ [r] else acc) []

/-- `str(record.get(group_by, "Unknown"))` of `group_data`. -/
def groupKeyOf (r : Record) (group_by : String) : String :=
  match alookup r group_by with
  | some v => pyStr v
  | none => "Unknown"

/-- Appending a record to its group in the insertion-ordered group
dict: a fresh key goes to the end, an existing key's list grows at its
end. -/
def insertGroup (gs : List (String × List Record)) (k : String) (r : Record) :
    List (String × List Record) :=
  match gs with
  | [] => [(k, [r])]
  | (k', rs) :: rest =>
    if k' = k then (k', rs ++ [r]) :: rest else (k', rs) :: insertGroup rest k r

/-- `DataTools.group_data` (data_tools.py lines 210–224). -/
def group_data (data : List Record) (group_by : String) :
    List (String × List Record) :=
  match data with
  | [] => []
  | r0 :: _ =>
    if (alookup r0 group_by).isSome then
      data.foldl (fun gs r => insertGroup gs (groupKeyOf r group_by) r) []
    else []

/-- `True` iff the record has an `isinstance(..., (int, float))` value
at `column` (the collection test of `aggregate_data`). -/
def numericAt (r : Record) (column : String) : Bool :=
  match alookup r column with
  | some v => isNumeric v
  | none => false

/-- The `values` list that `aggregate_data` collects for one group. -/
def numericColVals (rs : List Record) (agg_column : String) : List ℚ :=
  rs.filterMap fun r =>
    match alookup r agg_column with
    | some v => if isNumeric v then some (toQ v) else none
    | none => none

/-- The operation dispatch of `aggregate_data` on a nonempty value
list; an unrecognised operation string defaults to `sum`. -/
def applyOp (operation : String) (vals : List ℚ) : ℚ :=
  if operation = "sum" then vals.sum
  else if operation = "mean" ∨ operation = "avg" then vals.sum / (vals.length : ℚ)
  else if operation = "count" then (vals.length : ℚ)
  else if operation = "min" then listMin vals
  else if operation = "max" then listMax vals
  else vals.sum

/-- Insertion-ordered dict assignment `d[k] = v` (overwrite in place,
fresh keys at the end). -/
def setAssoc {α : Type} (l : List (String × α)) (k : String) (v : α) :
    List (String × α) :=
  match l with
  | [] => [(k, v)]
  | (k', v') :: rest =>
    if k' = k then (k', v) :: rest else (k', v') :: setAssoc rest k v

/-- `DataTools.aggregate_data` (data_tools.py lines 226–252): iterates
over the groups of `group_data` and assigns `results[group_key]` only
when the group has at least one numeric value in `agg_column`. -/
def aggregate_data (data : List Record) (group_by agg_column : String)
    (operation : String) : List (String × ℚ) :=
  (group_data data group_by).foldl
    (fun res p =>
      let vals := numericColVals p.2 agg_column
      if vals.isEmpty then res else setAssoc res p.1 (applyOp operation vals))
    []

/-! ## Basic lemmas about the record model -/

theorem alookup_isSome_iff_mem_keys {α : Type} (l : List (String × α)) (c : String) :
    (alookup l c).isSome = true ↔ c ∈ l.map Prod.fst := by
  induction l with
  | nil => simp [alookup]
  | cons p rest ih =>
    obtain ⟨k, v⟩ := p
    by_cases hk : k = c
    · subst hk; simp [alookup]
    · simp [alookup, hk, ih, Ne.symm hk]

theorem mem_columnValues_of (data : List Record) (column : String) (r : Record)
    (v : Value) (hr : r ∈ data) (hv : alookup r column = some v)
    (hnn : v ≠ .noneV) : v ∈ columnValues data column := by
  unfold columnValues
  rw [List.mem_filterMap]
  exact ⟨r, hr, by rw [hv]; simp [hnn]⟩

theorem foldl_filter_append (p : Record → Bool) (data : List Record) :
    ∀ acc : List Record,
      data.foldl (fun acc r => if p r then acc ++ [r] else acc) acc =
        acc ++ data.filter p := by
  induction data with
  | nil => intro acc; simp
  | cons r rest ih =>
    intro acc
    by_cases hp : p r
    · simp [List.filter_cons, hp, ih]
    · simp [List.filter_cons, hp, ih]

theorem condMatches_iff (r : Record) (conditions : List (String × Value)) :
    condMatches r conditions = true ↔
      ∀ kv ∈ conditions, ∃ v, alookup r kv.1 = some v ∧ pyEq v kv.2 = true := by
  induction conditions with
  | nil => simp [condMatches]
  | cons kv rest ih =>
    obtain ⟨c, cv⟩ := kv
    cases hl : alookup r c with
    | none => simp [condMatches, hl]
    | some rv =>
      by_cases he : pyEq rv cv = true
      · simp only [condMatches, hl, he, if_true, ih]
        constructor
        · intro h kv' hkv'
          rcases List.mem_cons.mp hkv' with hh | hh
          · subst hh; exact ⟨rv, by simp [hl, he]⟩
          · exact h kv' hh
        · intro h kv' hkv'
          exact h kv' (List.mem_cons_of_mem _ hkv')
      · simp only [condMatches, hl, if_neg he]
        constructor
        · intro h; exact absurd h (by simp)
        · intro h
          obtain ⟨v, hv, hpe⟩ := h (c, cv) (List.mem_cons_self _ _)
          rw [hl] at hv
          cases hv
          exact absurd hpe he

/-! ## Claim theorems: filtering -/

/-- C9.  Filtering with an empty conditions dictionary is the
identity: every record passes the (vacuous) condition check and is
appended in scan order, so `filter_data` returns the input list
unchanged. -/
theorem filter_data_no_conditions_identity (data : List Record) :
    filter_data data [] = data := by
  unfold filter_data
  rw [foldl_filter_append]
  simp [condMatches]

/-- C4.  `filter_data` returns exactly the subsequence of the input
(in original order) of records satisfying every condition: the result
is `data.filter` of the condition check, and the check succeeds on a
record exactly when every `(key, value)` pair of `conditions` is
present in the record with a Python-`==`-equal value. -/
theorem filter_data_exact_match_filter (data : List Record)
    (conditions : List (String × Value)) :
    filter_data data conditions = data.filter (fun r => condMatches r conditions) ∧
      ∀ r : Record, condMatches r conditions = true ↔
        ∀ kv ∈ conditions, ∃ v, alookup r kv.1 = some v ∧ pyEq v kv.2 = true := by
  constructor
  · unfold filter_data
    rw [foldl_filter_append]
    simp
  · intro r
    exact condMatches_iff r conditions

/-- Witness for C4 at a concrete input: one record matches the
condition, one lacks the key, one has an unequal value. -/
theorem filter_data_exact_match_filter_witness :
    filter_data
        [[("a", Value.intV 1), ("b", Value.strV "x")],
         [("b", Value.strV "x")],
         [("a", Value.intV 2), ("b", Value.strV "x")]]
        [("a", Value.intV 1)] =
      List.filter (fun r => condMatches r [("a", Value.intV 1)])
        [[("a", Value.intV 1), ("b", Value.strV "x")],
         [("b", Value.strV "x")],
         [("a", Value.intV 2), ("b", Value.strV "x")]] ∧
    (condMatches [("a", Value.intV 1), ("b", Value.strV "x")]
        [("a", Value.intV 1)] = true ↔
      ∀ kv ∈ [("a", Value.intV 1)],
        ∃ v, alookup [("a", Value.intV 1), ("b", Value.strV "x")] kv.1 = some v ∧
          pyEq v kv.2 = true) :=
  ⟨(filter_data_exact_match_filter
      [[("a", Value.intV 1), ("b", Value.strV "x")],
       [("b", Value.strV "x")],
       [("a", Value.intV 2), ("b", Value.strV "x")]]
      [("a", Value.intV 1)]).1,
    (filter_data_exact_match_filter
      [[("a", Value.intV 1), ("b", Value.strV "x")],
       [("b", Value.strV "x")],
       [("a", Value.intV 2), ("b", Value.strV "x")]]
      [("a", Value.intV 1)]).2
      [("a", Value.intV 1), ("b", Value.strV "x")]⟩

/-! ## Grouping lemmas -/

/-- Combination of an existing group with newly filtered records, as it
appears in the `group_data` fold characterization. -/
def ocat (o : Option (List Record)) (fs : List Record) : Option (List Record) :=
  match o, fs with
  | none, [] => none
  | o, fs => some (o.getD [] ++ fs)

theorem alookup_insertGroup (gs : List (String × List Record)) (k : String)
    (r : Record) (k' : String) :
    alookup (insertGroup gs k r) k' =
      if k' = k then some ((alookup gs k).getD [] ++ [r]) else alookup gs k' := by
  induction gs with
  | nil =>
    by_cases h : k' = k
    · subst h; simp [insertGroup, alookup]
    · have h' : ¬k = k' := fun hh => h hh.symm
      simp [insertGroup, alookup, h, h']
  | cons p rest ih =>
    obtain ⟨k0, rs⟩ := p
    by_cases h0 : k0 = k
    · subst h0
      by_cases h : k' = k0
      · subst h; simp [insertGroup, alookup]
      · have h' : ¬k0 = k' := fun hh => h hh.symm
        simp [insertGroup, alookup, h, h']
    · by_cases h : k' = k0
      · subst h
        simp [insertGroup, alookup, h0]
      · have h' : ¬k0 = k' := fun hh => h hh.symm
        simp [insertGroup, alookup, h0, h']
        rw [ih]

theorem alookup_foldl_insertGroup (key : Record → String) (data : List Record) :
    ∀ (gs : List (String × List Record)) (k : String),
      alookup (data.foldl (fun gs r => insertGroup gs (key r) r) gs) k =
        ocat (alookup gs k) (data.filter fun r => key r = k) := by
  induction data with
  | nil =>
    intro gs k
    cases h : alookup gs k <;> simp [ocat, h]
  | cons r rest ih =>
    intro gs k
    rw [List.foldl_cons, ih]
    by_cases hk : key r = k
    · subst hk
      rw [List.filter_cons_of_pos (by simp)]
      rw [alookup_insertGroup, if_pos rfl]
      cases h : alookup gs (key r) <;> simp [ocat, h]
    · rw [List.filter_cons_of_neg (by simp [hk])]
      rw [alookup_insertGroup, if_neg (fun hh => hk hh.symm)]

theorem keys_insertGroup (gs : List (String × List Record)) (k : String)
    (r : Record) :
    (insertGroup gs k r).map Prod.fst =
      if k ∈ gs.map Prod.fst then gs.map Prod.fst else gs.map Prod.fst ++ [k] := by
  induction gs with
  | nil => simp [insertGroup]
  | cons p rest ih =>
    obtain ⟨k0, rs⟩ := p
    by_cases h0 : k0 = k
    · subst h0
      simp [insertGroup]
    · have h0' : ¬k = k0 := fun hh => h0 hh.symm
      simp [insertGroup, h0, h0', ih]
      by_cases hm : k ∈ rest.map Prod.fst <;> simp [hm, h0']

theorem nodup_keys_insertGroup (gs : List (String × List Record)) (k : String)
    (r : Record) (h : (gs.map Prod.fst).Nodup) :
    ((insertGroup gs k r).map Prod.fst).Nodup := by
  rw [keys_insertGroup]
  by_cases hm : k ∈ gs.map Prod.fst
  · simpa [hm] using h
  · simp [hm, List.nodup_append, h]

theorem nodup_keys_foldl_insertGroup (key : Record → String) (data : List Record) :
    ∀ gs : List (String × List Record), (gs.map Prod.fst).Nodup →
      (((data.foldl (fun gs r => insertGroup gs (key r) r) gs)).map Prod.fst).Nodup := by
  induction data with
  | nil => intro gs h; exact h
  | cons r rest ih =>
    intro gs h
    rw [List.foldl_cons]
    exact ih _ (nodup_keys_insertGroup gs (key r) r h)

/-- C5.  On a non-empty record list whose first record has the
`group_by` column, `group_data` produces groups with pairwise distinct
keys, and the group stored under a key `k` is exactly the subsequence
of input records (original order) whose group key — the string form of
the record's `group_by` value, `"Unknown"` when the column is absent —
equals `k`; absent keys have no (empty) group.  Hence every record
occurs in exactly one group and the groups partition the input. -/
theorem group_data_partitions (data : List Record) (group_by : String)
    (r0 : Record) (h0 : data.head? = some r0)
    (hc : (alookup r0 group_by).isSome) :
    ((group_data data group_by).map Prod.fst).Nodup ∧
      ∀ k, alookup (group_data data group_by) k =
        (if (data.filter fun r => groupKeyOf r group_by = k).isEmpty then none
         else some (data.filter fun r => groupKeyOf r group_by = k)) := by
  cases data with
  | nil => cases h0
  | cons r1 rest =>
    have hr1 : r1 = r0 := by simpa using h0
    subst hr1
    simp only [group_data]
    rw [if_pos hc]
    constructor
    · exact nodup_keys_foldl_insertGroup _ _ [] (by simp)
    · intro k
      rw [alookup_foldl_insertGroup]
      cases hf : (r1 :: rest).filter fun r => groupKeyOf r group_by = k with
      | nil => simp [ocat, alookup, hf]
      | cons a l => simp [ocat, alookup, hf]

/-- Witness for C5 at a concrete input: three records, two sharing a
group value. -/
theorem group_data_partitions_witness :
    (((group_data
        [[("g", Value.strV "a"), ("x", Value.intV 1)],
         [("g", Value.strV "b")],
         [("g", Value.strV "a"), ("x", Value.intV 2)]] "g").map Prod.fst).Nodup) ∧
      ∀ k, alookup (group_data
        [[("g", Value.strV "a"), ("x", Value.intV 1)],
         [("g", Value.strV "b")],
         [("g", Value.strV "a"), ("x", Value.intV 2)]] "g") k =
        (if ([[("g", Value.strV "a"), ("x", Value.intV 1)],
              [("g", Value.strV "b")],
              [("g", Value.strV "a"), ("x", Value.intV 2)]].filter
                fun r => groupKeyOf r "g" = k).isEmpty then none
         else some ([[("g", Value.strV "a"), ("x", Value.intV 1)],
              [("g", Value.strV "b")],
              [("g", Value.strV "a"), ("x", Value.intV 2)]].filter
                fun r => groupKeyOf r "g" = k)) :=
  group_data_partitions
    [[("g", Value.strV "a"), ("x", Value.intV 1)],
     [("g", Value.strV "b")],
     [("g", Value.strV "a"), ("x", Value.intV 2)]] "g"
    [("g", Value.strV "a"), ("x", Value.intV 1)] rfl (by decide)

/-! ## Aggregation lemmas -/

theorem alookup_setAssoc {α : Type} (l : List (String × α)) (k : String) (v : α)
    (k' : String) :
    alookup (setAssoc l k v) k' = if k' = k then some v else alookup l k' := by
  induction l with
  | nil =>
    by_cases h : k' = k
    · subst h; simp [setAssoc, alookup]
    · have h' : ¬k = k' := fun hh => h hh.symm
      simp [setAssoc, alookup, h, h']
  | cons p rest ih =>
    obtain ⟨k0, v0⟩ := p
    by_cases h0 : k0 = k
    · subst h0
      by_cases h : k' = k0
      · subst h; simp [setAssoc, alookup]
      · have h' : ¬k0 = k' := fun hh => h hh.symm
        simp [setAssoc, alookup, h, h']
    · by_cases h : k' = k0
      · subst h
        simp [setAssoc, alookup, h0]
      · have h' : ¬k0 = k' := fun hh => h hh.symm
        simp [setAssoc, alookup, h0, h']
        rw [ih]

theorem alookup_foldl_aggStep_isSome (agg_column operation : String)
    (groups : List (String × List Record)) :
    ∀ (res : List (String × ℚ)) (k : String),
      (alookup (groups.foldl
          (fun res p =>
            let vals := numericColVals p.2 agg_column
            if vals.isEmpty then res else setAssoc res p.1 (applyOp operation vals))
          res) k).isSome = true ↔
        ((alookup res k).isSome = true ∨
          ∃ p ∈ groups, p.1 = k ∧ numericColVals p.2 agg_column ≠ []) := by
  induction groups with
  | nil => intro res k; simp
  | cons p rest ih =>
    intro res k
    rw [List.foldl_cons, ih]
    by_cases hv : (numericColVals p.2 agg_column).isEmpty
    · have hv' : numericColVals p.2 agg_column = [] := by
        simpa [List.isEmpty_iff] using hv
      simp only [hv, if_pos]
      constructor
      · rintro (h | h)
        · exact Or.inl h
        · exact Or.inr (by
            obtain ⟨q, hq, hqk, hqv⟩ := h
            exact ⟨q, List.mem_cons_of_mem _ hq, hqk, hqv⟩)
      · rintro (h | ⟨q, hq, hqk, hqv⟩)
        · exact Or.inl h
        · rcases List.mem_cons.mp hq with hh | hh
          · subst hh; exact absurd hv' hqv
          · exact Or.inr ⟨q, hh, hqk, hqv⟩
    · have hv' : numericColVals p.2 agg_column ≠ [] := by
        simpa [List.isEmpty_iff] using hv
      simp only [hv, if_neg, Bool.not_eq_true]
      constructor
      · rintro (h | h)
        · rw [alookup_setAssoc] at h
          by_cases hk : k = p.1
          · exact Or.inr ⟨p, List.mem_cons_self _ _, hk.symm, hv'⟩
          · rw [if_neg hk] at h
            exact Or.inl h
        · obtain ⟨q, hq, hqk, hqv⟩ := h
          exact Or.inr ⟨q, List.mem_cons_of_mem _ hq, hqk, hqv⟩
      · rintro (h | ⟨q, hq, hqk, hqv⟩)
        · left
          rw [alookup_setAssoc]
          by_cases hk : k = p.1
          · simp [hk]
          · rw [if_neg hk]; exact h
        · rcases List.mem_cons.mp hq with hh | hh
          · subst hh
            left
            rw [alookup_setAssoc, if_pos hqk.symm]
            rfl
          · exact Or.inr ⟨q, hh, hqk, hqv⟩

theorem numericColVals_ne_nil_iff (rs : List Record) (agg_column : String) :
    numericColVals rs agg_column ≠ [] ↔ ∃ r ∈ rs, numericAt r agg_column = true := by
  unfold numericColVals numericAt
  rw [Ne, List.filterMap_eq_nil_iff]
  push_neg
  constructor
  · rintro ⟨r, hr, hne⟩
    refine ⟨r, hr, ?_⟩
    cases hl : alookup r agg_column with
    | none =>
      rw [hl] at hne
      exact absurd rfl hne
    | some v =>
      rw [hl] at hne
      by_cases hn : isNumeric v = true
      · exact hn
      · exfalso
        apply hne
        show (if isNumeric v = true then some (toQ v) else none) = none
        rw [if_neg hn]
  · rintro ⟨r, hr, hnum⟩
    refine ⟨r, hr, ?_⟩
    cases hl : alookup r agg_column with
    | none =>
      rw [hl] at hnum
      exact absurd hnum (by simp)
    | some v =>
      rw [hl] at hnum
      have hn : isNumeric v = true := hnum
      show (if isNumeric v = true then some (toQ v) else none) ≠ none
      rw [if_pos hn]
      simp

/-- C10.  `aggregate_data` has a result entry for a key exactly when
`group_data` returned a group under that key containing at least one
record with an `int`/`float` value in `agg_column`; groups whose
records all lack a numeric value there are silently absent from the
result (for every operation string). -/
theorem aggregate_data_drops_empty_groups (data : List Record)
    (group_by agg_column operation : String) (k : String) :
    (alookup (aggregate_data data group_by agg_column operation) k).isSome = true ↔
      ∃ rs, (k, rs) ∈ group_data data group_by ∧
        ∃ r ∈ rs, numericAt r agg_column = true := by
  unfold aggregate_data
  rw [alookup_foldl_aggStep_isSome]
  simp only [alookup, Option.isSome_none, Bool.false_eq_true, false_or]
  constructor
  · rintro ⟨p, hp, hpk, hpv⟩
    subst hpk
    exact ⟨p.2, by simpa using hp,
      (numericColVals_ne_nil_iff p.2 agg_column).mp hpv⟩
  · rintro ⟨rs, hrs, hex⟩
    exact ⟨(k, rs), hrs, rfl, (numericColVals_ne_nil_iff rs agg_column).mpr hex⟩

/-- Witness for C10 at a concrete input: group "a" has a numeric
value in column "x", group "b" has none and is dropped. -/
theorem aggregate_data_drops_empty_groups_witness :
    ((alookup (aggregate_data
        [[("g", Value.strV "a"), ("x", Value.intV 1)],
         [("g", Value.strV "b"), ("x", Value.strV "oops")]] "g" "x" "sum")
        "a").isSome = true ↔
      ∃ rs, ("a", rs) ∈ group_data
        [[("g", Value.strV "a"), ("x", Value.intV 1)],
         [("g", Value.strV "b"), ("x", Value.strV "oops")]] "g" ∧
        ∃ r ∈ rs, numericAt r "x" = true) :=
  aggregate_data_drops_empty_groups
    [[("g", Value.strV "a"), ("x", Value.intV 1)],
     [("g", Value.strV "b"), ("x", Value.strV "oops")]] "g" "x" "sum" "a"

/-! ## Column-collection lemmas for `summarize_data` -/

theorem foldl_append_eq_flatten {α β : Type} (f : β → List α) (l : List β) :
    ∀ acc : List α,
      l.foldl (fun acc r => acc ++ f r) acc = acc ++ (l.map f).flatten := by
  induction l with
  | nil => intro acc; simp
  | cons r rest ih => intro acc; simp [ih, List.append_assoc]

theorem mem_collectKeys (data : List Record) (c : String) :
    c ∈ collectKeys data ↔ ∃ r ∈ data, c ∈ r.map Prod.fst := by
  unfold collectKeys
  rw [foldl_append_eq_flatten]
  simp [List.mem_flatten]

theorem mem_sortedColumns (data : List Record) (c : String) :
    c ∈ sortedColumns data ↔ ∃ r ∈ data, (alookup r c).isSome = true := by
  unfold sortedColumns
  rw [(List.perm_insertionSort _ _).mem_iff, List.mem_dedup, mem_collectKeys]
  constructor
  · rintro ⟨r, hr, hc⟩
    exact ⟨r, hr, (alookup_isSome_iff_mem_keys r c).mpr hc⟩
  · rintro ⟨r, hr, hc⟩
    exact ⟨r, hr, (alookup_isSome_iff_mem_keys r c).mp hc⟩

/-- Counterexample to C2 as stated: on two records with keys `"a"` and
`"b"` respectively, `summarize_data` does not report the keys of the
first record (`["a"]`) — it reports the union of the keys of all
records. -/
theorem summarize_columns_not_first_record_keys :
    (summarize_data [[("a", Value.intV 0)], [("b", Value.intV 0)]] 5).columns ≠
      ["a"] := by
  intro h
  have hcols : (summarize_data [[("a", Value.intV 0)], [("b", Value.intV 0)]] 5).columns =
      sortedColumns [[("a", Value.intV 0)], [("b", Value.intV 0)]] := rfl
  have hb : "b" ∈ sortedColumns [[("a", Value.intV 0)], [("b", Value.intV 0)]] :=
    (mem_sortedColumns _ _).mpr
      ⟨[("b", Value.intV 0)], by simp, by decide⟩
  rw [← hcols, h] at hb
  exact absurd hb (by decide)

/-- C2 (amended).  `summarize_data` reports as columns the sorted,
duplicate-free set of keys appearing in *any* record (not only the
first); the first-record schema rule does hold for the other two
operations: on a non-empty record list, `calculate_column_stats`
returns `None` and `group_data` returns the empty dictionary whenever
the requested column is not a key of the first record, even if later
records contain it. -/
theorem first_record_schema_amended (data : List Record) (sample_size : Nat)
    (column : String) (r0 : Record) (h0 : data.head? = some r0) :
    (∀ c, c ∈ (summarize_data data sample_size).columns ↔
        ∃ r ∈ data, (alookup r c).isSome = true) ∧
    (summarize_data data sample_size).columns.Nodup ∧
    (summarize_data data sample_size).columns.Sorted (· ≤ ·) ∧
    (alookup r0 column = none →
      calculate_column_stats data column = none ∧ group_data data column = []) := by
  cases data with
  | nil => cases h0
  | cons r1 rest =>
    have hr1 : r1 = r0 := by simpa using h0
    subst hr1
    have hcols : (summarize_data (r1 :: rest) sample_size).columns =
        sortedColumns (r1 :: rest) := rfl
    refine ⟨?_, ?_, ?_, ?_⟩
    · intro c
      rw [hcols]
      exact mem_sortedColumns _ c
    · rw [hcols]
      exact ((List.perm_insertionSort _ _).nodup_iff).mpr (List.nodup_dedup _)
    · rw [hcols]
      exact List.sorted_insertionSort _ _
    · intro hc
      constructor
      · simp only [calculate_column_stats]
        rw [if_neg (by simp [hc])]
      · simp only [group_data]
        rw [if_neg (by simp [hc])]

/-- Witness for the amended C2 at a concrete input: a one-record list
and a column absent from the first record. -/
theorem first_record_schema_amended_witness :
    (∀ c, c ∈ (summarize_data [[("a", Value.intV 1)]] 5).columns ↔
        ∃ r ∈ [[("a", Value.intV 1)]], (alookup r c).isSome = true) ∧
    (summarize_data [[("a", Value.intV 1)]] 5).columns.Nodup ∧
    (summarize_data [[("a", Value.intV 1)]] 5).columns.Sorted (· ≤ ·) ∧
    (alookup [("a", Value.intV 1)] "missing" = none →
      calculate_column_stats [[("a", Value.intV 1)]] "missing" = none ∧
        group_data [[("a", Value.intV 1)]] "missing" = []) :=
  first_record_schema_amended [[("a", Value.intV 1)]] 5 "missing"
    [("a", Value.intV 1)] rfl

/-! ## Statistics lemmas for `calculate_column_stats` -/

/-- The `numeric_values` list of `calculate_column_stats` before
sorting: the `float`-casts of the values of `column` that pass
`isinstance(v, (int, float))`, in record order. -/
def numericVals (data : List Record) (column : String) : List ℚ :=
  ((columnValues data column).filter isNumeric).map toQ

/-- The sorted numeric value list (`numeric_values` after the in-place
`sort()`). -/
def sortedNumericVals (data : List Record) (column : String) : List ℚ :=
  List.insertionSort (· ≤ ·) (numericVals data column)

/-- Reduction of `calculate_column_stats` on the successful numeric
path: first record has the column, some non-`None` value exists, and
some numeric value exists. -/
theorem calculate_column_stats_eq (column : String)
    (r1 : Record) (rest : List Record)
    (hc : (alookup r1 column).isSome = true)
    (hvals : (columnValues (r1 :: rest) column).isEmpty = false)
    (hnume : (numericVals (r1 :: rest) column).isEmpty = false) :
    calculate_column_stats (r1 :: rest) column = some
      { column := column
        count := (columnValues (r1 :: rest) column).length
        unique_count := uniqueCount (columnValues (r1 :: rest) column)
        mean := some ((sortedNumericVals (r1 :: rest) column).sum /
          ((sortedNumericVals (r1 :: rest) column).length : ℚ))
        median := some
          (if (sortedNumericVals (r1 :: rest) column).length % 2 = 1 then
            (sortedNumericVals (r1 :: rest) column).getD
              ((sortedNumericVals (r1 :: rest) column).length / 2) 0
          else
            ((sortedNumericVals (r1 :: rest) column).getD
              ((sortedNumericVals (r1 :: rest) column).length / 2 - 1) 0 +
             (sortedNumericVals (r1 :: rest) column).getD
              ((sortedNumericVals (r1 :: rest) column).length / 2) 0) / 2)
        std_sq := some (((sortedNumericVals (r1 :: rest) column).map fun x =>
          (x - (sortedNumericVals (r1 :: rest) column).sum /
            ((sortedNumericVals (r1 :: rest) column).length : ℚ)) ^ 2).sum /
          ((sortedNumericVals (r1 :: rest) column).length : ℚ))
        min := some (listMin (sortedNumericVals (r1 :: rest) column))
        max := some (listMax (sortedNumericVals (r1 :: rest) column))
        quartiles := some
          [(sortedNumericVals (r1 :: rest) column).getD
            ((sortedNumericVals (r1 :: rest) column).length / 4) 0,
           if (sortedNumericVals (r1 :: rest) column).length % 2 = 1 then
            (sortedNumericVals (r1 :: rest) column).getD
              ((sortedNumericVals (r1 :: rest) column).length / 2) 0
           else
            ((sortedNumericVals (r1 :: rest) column).getD
              ((sortedNumericVals (r1 :: rest) column).length / 2 - 1) 0 +
             (sortedNumericVals (r1 :: rest) column).getD
              ((sortedNumericVals (r1 :: rest) column).length / 2) 0) / 2,
           if 3 * (sortedNumericVals (r1 :: rest) column).length / 4 <
              (sortedNumericVals (r1 :: rest) column).length then
            (sortedNumericVals (r1 :: rest) column).getD
              (3 * (sortedNumericVals (r1 :: rest) column).length / 4) 0
           else
            (sortedNumericVals (r1 :: rest) column).getD
              ((sortedNumericVals (r1 :: rest) column).length - 1) 0] } := by
  unfold sortedNumericVals numericVals at *
  simp only [calculate_column_stats, hc, hvals, hnume, Bool.false_eq_true,
    if_false, if_true]

/-- C1.  On a non-empty record list whose first record has `column`
and with at least one `int`/`float` value in that column,
`calculate_column_stats` succeeds; its `mean` is the arithmetic mean
of the numeric values (sum over count); its `median` is the middle
element of the sorted numeric values for odd count and the average of
the two middle elements for even count (the sort is a sorted
permutation of the numeric values); and its standard deviation is the
square root of `std_sq` = the sum of squared deviations from the mean
divided by the count — the population variance, not count minus
one. -/
theorem calculate_column_stats_mean_median_std (data : List Record)
    (column : String) (r0 : Record) (h0 : data.head? = some r0)
    (hc : (alookup r0 column).isSome = true)
    (hnum : ∃ r ∈ data, numericAt r column = true) :
    ∃ stats, calculate_column_stats data column = some stats ∧
      stats.mean = some ((numericVals data column).sum /
        ((numericVals data column).length : ℚ)) ∧
      (sortedNumericVals data column).Sorted (· ≤ ·) ∧
      List.Perm (sortedNumericVals data column) (numericVals data column) ∧
      stats.median = some
        (if (numericVals data column).length % 2 = 1 then
          (sortedNumericVals data column).getD
            ((numericVals data column).length / 2) 0
        else
          ((sortedNumericVals data column).getD
            ((numericVals data column).length / 2 - 1) 0 +
           (sortedNumericVals data column).getD
            ((numericVals data column).length / 2) 0) / 2) ∧
      stats.std_sq = some (((numericVals data column).map fun x =>
        (x - (numericVals data column).sum /
          ((numericVals data column).length : ℚ)) ^ 2).sum /
        ((numericVals data column).length : ℚ)) := by
  cases data with
  | nil => cases h0
  | cons r1 rest =>
    have hr1 : r1 = r0 := by simpa using h0
    subst hr1
    obtain ⟨r, hr, hn⟩ := hnum
    obtain ⟨v, hv, hnv⟩ : ∃ v, alookup r column = some v ∧ isNumeric v = true := by
      unfold numericAt at hn
      cases hl : alookup r column with
      | none => rw [hl] at hn; cases hn
      | some v => rw [hl] at hn; exact ⟨v, rfl, hn⟩
    have hvnn : v ≠ .noneV := by
      intro h; rw [h] at hnv; cases hnv
    have hvmem : v ∈ columnValues (r1 :: rest) column :=
      mem_columnValues_of _ column r v hr hv hvnn
    have hvals : (columnValues (r1 :: rest) column).isEmpty = false := by
      rw [List.isEmpty_eq_false]
      intro h
      rw [h] at hvmem
      cases hvmem
    have hqmem : toQ v ∈ numericVals (r1 :: rest) column := by
      unfold numericVals
      exact List.mem_map_of_mem toQ (List.mem_filter.mpr ⟨hvmem, hnv⟩)
    have hnume : (numericVals (r1 :: rest) column).isEmpty = false := by
      rw [List.isEmpty_eq_false]
      intro h
      rw [h] at hqmem
      cases hqmem
    have hperm : List.Perm (sortedNumericVals (r1 :: rest) column)
        (numericVals (r1 :: rest) column) := List.perm_insertionSort _ _
    have hsum : (sortedNumericVals (r1 :: rest) column).sum =
        (numericVals (r1 :: rest) column).sum := hperm.sum_eq
    have hlen : (sortedNumericVals (r1 :: rest) column).length =
        (numericVals (r1 :: rest) column).length := hperm.length_eq
    refine ⟨_, calculate_column_stats_eq column r1 rest hc hvals hnume,
      ?_, ?_, hperm, ?_, ?_⟩
    · rw [hsum, hlen]
    · exact List.sorted_insertionSort _ _
    · rw [hlen]
    · rw [hsum, hlen]
      have := (hperm.map fun x =>
        (x - (numericVals (r1 :: rest) column).sum /
          ((numericVals (r1 :: rest) column).length : ℚ)) ^ 2).sum_eq
      rw [this]

/-- Witness for C1 at a concrete input: two records with integer
values 1 and 3 in column "x". -/
theorem calculate_column_stats_mean_median_std_witness :
    ∃ stats, calculate_column_stats
        [[("x", Value.intV 1)], [("x", Value.intV 3)]] "x" = some stats ∧
      stats.mean = some ((numericVals
          [[("x", Value.intV 1)], [("x", Value.intV 3)]] "x").sum /
        ((numericVals [[("x", Value.intV 1)], [("x", Value.intV 3)]] "x").length : ℚ)) ∧
      (sortedNumericVals [[("x", Value.intV 1)], [("x", Value.intV 3)]] "x").Sorted (· ≤ ·) ∧
      List.Perm (sortedNumericVals [[("x", Value.intV 1)], [("x", Value.intV 3)]] "x")
        (numericVals [[("x", Value.intV 1)], [("x", Value.intV 3)]] "x") ∧
      stats.median = some
        (if (numericVals [[("x", Value.intV 1)], [("x", Value.intV 3)]] "x").length % 2 = 1 then
          (sortedNumericVals [[("x", Value.intV 1)], [("x", Value.intV 3)]] "x").getD
            ((numericVals [[("x", Value.intV 1)], [("x", Value.intV 3)]] "x").length / 2) 0
        else
          ((sortedNumericVals [[("x", Value.intV 1)], [("x", Value.intV 3)]] "x").getD
            ((numericVals [[("x", Value.intV 1)], [("x", Value.intV 3)]] "x").length / 2 - 1) 0 +
           (sortedNumericVals [[("x", Value.intV 1)], [("x", Value.intV 3)]] "x").getD
            ((numericVals [[("x", Value.intV 1)], [("x", Value.intV 3)]] "x").length / 2) 0) / 2) ∧
      stats.std_sq = some (((numericVals [[("x", Value.intV 1)], [("x", Value.intV 3)]] "x").map fun x =>
        (x - (numericVals [[("x", Value.intV 1)], [("x", Value.intV 3)]] "x").sum /
          ((numericVals [[("x", Value.intV 1)], [("x", Value.intV 3)]] "x").length : ℚ)) ^ 2).sum /
        ((numericVals [[("x", Value.intV 1)], [("x", Value.intV 3)]] "x").length : ℚ)) :=
  calculate_column_stats_mean_median_std
    [[("x", Value.intV 1)], [("x", Value.intV 3)]] "x"
    [("x", Value.intV 1)] rfl (by decide) (by decide)

/-! ## `load_json_data` (data_tools.py lines 35–63)

`json.loads` is Python-library code outside this repository; the model
takes the parser as a parameter `parse` returning `none` when the
string is not valid JSON (the `json.JSONDecodeError` path) and the
parsed document otherwise, and states the claim for every parser. -/

/-- A parsed JSON document as `json.loads` returns it: an object, an
array of documents, or a scalar. -/
inductive Json where
  | obj (fields : List (String × Json))
  | arr (elems : List Json)
  | prim (v : Value)

/-- The argument of `load_json_data` (`Union[str, List[Dict], Dict]`;
non-string inputs skip the parse). -/
inductive LoadInput where
  | str (s : String)
  | val (v : Json)

/-- The normalization step of `load_json_data`: a single object is
wrapped in a one-element list, a list is used as is, anything else is
logged as unsupported and becomes the empty list. -/
def normalizeJson : Json → List Json
  | .obj fields => [.obj fields]
  | .arr elems => elems
  | _ => []

/-- `DataTools.load_json_data`.  A string input is parsed; a parse
failure is caught (`json.JSONDecodeError`) and yields `[]`.  No
exception escapes: the model is a total function. -/
def load_json_data (parse : String → Option Json) : LoadInput → List Json
  | .str s =>
    match parse s with
    | none => []
    | some v => normalizeJson v
  | .val v => normalizeJson v

/-- C6.  For every parser and every string input, `load_json_data`
returns normally (it is a total function, modelling that the
`except` clauses swallow every error): an invalid JSON string yields
`[]`, a string parsing to an object yields that object in a
one-element list, and a string parsing to an array yields the array
unchanged. -/
theorem load_json_data_string_behavior (parse : String → Option Json)
    (s : String) :
    (parse s = none → load_json_data parse (.str s) = []) ∧
    (∀ fields, parse s = some (.obj fields) →
      load_json_data parse (.str s) = [.obj fields]) ∧
    (∀ elems, parse s = some (.arr elems) →
      load_json_data parse (.str s) = elems) := by
  refine ⟨?_, ?_, ?_⟩
  · intro h
    simp [load_json_data, h]
  · intro fields h
    simp [load_json_data, h, normalizeJson]
  · intro elems h
    simp [load_json_data, h, normalizeJson]

/-- A concrete parser used by the C6 witness: recognises two fixed
strings and rejects everything else. -/
def parseProbe : String → Option Json := fun s =>
  if s = "[]" then some (Json.arr [])
  else if s = "obj" then some (Json.obj [("a", Json.prim (Value.intV 1))])
  else none

/-- Witness for C6 with the concrete parser `parseProbe`. -/
theorem load_json_data_string_behavior_witness :
    (parseProbe "bad" = none → load_json_data parseProbe (.str "bad") = []) ∧
    (∀ fields, parseProbe "obj" = some (.obj fields) →
      load_json_data parseProbe (.str "obj") = [.obj fields]) ∧
    (∀ elems, parseProbe "[]" = some (.arr elems) →
      load_json_data parseProbe (.str "[]") = elems) :=
  ⟨(load_json_data_string_behavior parseProbe "bad").1,
   (load_json_data_string_behavior parseProbe "obj").2.1,
   (load_json_data_string_behavior parseProbe "[]").2.2⟩

/-! ## `retry_async` (helpers.py lines 181–209)

The wrapped async callable is modelled as a function from the attempt
index to that call's outcome (`Except E A`: `.ok` models a normal
return, `.error` a raised exception).  `asyncio.sleep` is modelled by
recording the slept durations in order. -/

/-- Model of `RetryConfig` (helpers.py lines 181–186); delays are
rationals standing for the float fields. -/
structure RetryConfig where
  max_attempts : Nat := 3
  delay : ℚ := 1
  backoff_factor : ℚ := 2

/-- Outcome of one `retry_async` run: how many calls were made, what
the function call returned — `some (.ok a)` for a returned value,
`some (.error e)` for a re-raised final exception, `none` for the
implicit `None` fall-through when `max_attempts = 0` — and the
durations passed to `asyncio.sleep`, in order. -/
structure RetryResult (E A : Type) where
  calls : Nat
  result : Option (Except E A)
  sleeps : List ℚ

/-- The `for attempt in range(config.max_attempts)` loop of
`retry_async`: `remaining` counts the attempts left, `i` is the
current attempt index, `cur` the current delay.  On failure of a
non-final attempt the loop sleeps `cur` and multiplies it by the
backoff factor; on failure of the final attempt it breaks and the
captured exception is re-raised. -/
def retryLoop {E A : Type} (f : Nat → Except E A) :
    Nat → Nat → ℚ → ℚ → RetryResult E A
  | _, 0, _, _ => { calls := 0, result := none, sleeps := [] }
  | i, remaining + 1, cur, backoff =>
    match f i with
    | .ok a => { calls := 1, result := some (.ok a), sleeps := [] }
    | .error e =>
      if remaining = 0 then
        { calls := 1, result := some (.error e), sleeps := [] }
      else
        let tail := retryLoop f (i + 1) remaining (cur * backoff) backoff
        { calls := tail.calls + 1, result := tail.result,
          sleeps := cur :: tail.sleeps }

/-- `retry_async(func, config=config)` (helpers.py lines 189–209). -/
def retry_async {E A : Type} (f : Nat → Except E A) (config : RetryConfig) :
    RetryResult E A :=
  retryLoop f 0 config.max_attempts config.delay config.backoff_factor

theorem retryLoop_ok_step {E A : Type} (f : Nat → Except E A) (i rem : Nat)
    (cur backoff : ℚ) (a : A) (hf : f i = .ok a) :
    retryLoop f i (rem + 1) cur backoff =
      { calls := 1, result := some (.ok a), sleeps := [] } := by
  simp [retryLoop, hf]

theorem retryLoop_last_error_step {E A : Type} (f : Nat → Except E A) (i : Nat)
    (cur backoff : ℚ) (e : E) (hf : f i = .error e) :
    retryLoop f i 1 cur backoff =
      { calls := 1, result := some (.error e), sleeps := [] } := by
  simp [retryLoop, hf]

theorem retryLoop_error_step {E A : Type} (f : Nat → Except E A) (i rem : Nat)
    (cur backoff : ℚ) (e : E) (hf : f i = .error e) (hrem : rem ≠ 0) :
    retryLoop f i (rem + 1) cur backoff =
      { calls := (retryLoop f (i + 1) rem (cur * backoff) backoff).calls + 1,
        result := (retryLoop f (i + 1) rem (cur * backoff) backoff).result,
        sleeps := cur :: (retryLoop f (i + 1) rem (cur * backoff) backoff).sleeps } := by
  simp [retryLoop, hf, hrem]

theorem retryLoop_calls_le {E A : Type} (f : Nat → Except E A) :
    ∀ (remaining i : Nat) (cur backoff : ℚ),
      (retryLoop f i remaining cur backoff).calls ≤ remaining := by
  intro remaining
  induction remaining with
  | zero => intro i cur backoff; simp [retryLoop]
  | succ rem ih =>
    intro i cur backoff
    cases hf : f i with
    | ok a =>
      rw [retryLoop_ok_step f i rem cur backoff a hf]
      show 1 ≤ rem + 1
      omega
    | error e =>
      cases hrem : rem with
      | zero => rw [retryLoop_last_error_step f i cur backoff e hf]
      | succ rem' =>
        rw [retryLoop_error_step f i (rem' + 1) cur backoff e hf (by omega)]
        have := ih (i + 1) (cur * backoff) backoff
        rw [hrem] at this
        simp only [] at *
        omega

theorem retryLoop_first_ok {E A : Type} (f : Nat → Except E A) :
    ∀ (remaining i : Nat) (cur backoff : ℚ) (j : Nat) (a : A),
      j < remaining → (∀ l, l < j → (f (i + l)).isOk = false) →
      f (i + j) = .ok a →
      (retryLoop f i remaining cur backoff).result = some (.ok a) ∧
        (retryLoop f i remaining cur backoff).calls = j + 1 := by
  intro remaining
  induction remaining with
  | zero => intro i cur backoff j a hj; omega
  | succ rem ih =>
    intro i cur backoff j a hj hfail hok
    cases j with
    | zero =>
      simp only [Nat.add_zero] at hok
      rw [retryLoop_ok_step f i rem cur backoff a hok]
      exact ⟨rfl, rfl⟩
    | succ j' =>
      have hf0 : (f i).isOk = false := by
        have := hfail 0 (Nat.succ_pos j')
        simpa using this
      cases hf : f i with
      | ok a0 => rw [hf] at hf0; cases hf0
      | error e =>
        have hrem : rem ≠ 0 := by omega
        rw [retryLoop_error_step f i rem cur backoff e hf hrem]
        have hrec := ih (i + 1) (cur * backoff) backoff j' a
          (by omega)
          (by
            intro l hl
            have := hfail (l + 1) (by omega)
            rw [show i + (l + 1) = i + 1 + l by omega] at this
            exact this)
          (by rw [show i + 1 + j' = i + (j' + 1) by omega]; exact hok)
        exact ⟨hrec.1, by simp only []; rw [hrec.2]⟩

theorem retryLoop_all_fail {E A : Type} (f : Nat → Except E A) :
    ∀ (remaining i : Nat) (cur backoff : ℚ),
      1 ≤ remaining → (∀ l, l < remaining → (f (i + l)).isOk = false) →
      ∃ e, f (i + remaining - 1) = .error e ∧
        (retryLoop f i remaining cur backoff).result = some (.error e) ∧
        (retryLoop f i remaining cur backoff).calls = remaining := by
  intro remaining
  induction remaining with
  | zero => intro i cur backoff h; omega
  | succ rem ih =>
    intro i cur backoff _ hfail
    have hf0 : (f i).isOk = false := by simpa using hfail 0 (Nat.succ_pos rem)
    cases hf : f i with
    | ok a0 => rw [hf] at hf0; cases hf0
    | error e =>
      cases hrem : rem with
      | zero =>
        refine ⟨e, by simpa using hf, ?_, ?_⟩
        · rw [retryLoop_last_error_step f i cur backoff e hf]
        · rw [retryLoop_last_error_step f i cur backoff e hf]
      | succ rem' =>
        obtain ⟨e', he', hres, hcalls⟩ := ih (i + 1) (cur * backoff) backoff
          (by omega)
          (by
            intro l hl
            have := hfail (l + 1) (by omega)
            rw [show i + (l + 1) = i + 1 + l by omega] at this
            exact this)
        rw [hrem] at he' hres hcalls
        refine ⟨e', ?_, ?_, ?_⟩
        · rw [show i + (rem' + 1 + 1) - 1 = i + 1 + (rem' + 1) - 1 by omega]
          exact he'
        · rw [retryLoop_error_step f i (rem' + 1) cur backoff e hf (by omega)]
          exact hres
        · rw [retryLoop_error_step f i (rem' + 1) cur backoff e hf (by omega)]
          simp only []
          rw [hcalls]

theorem retryLoop_calls_pos {E A : Type} (f : Nat → Except E A) (i rem : Nat)
    (cur backoff : ℚ) :
    1 ≤ (retryLoop f i (rem + 1) cur backoff).calls := by
  cases hf : f i with
  | ok a => rw [retryLoop_ok_step f i rem cur backoff a hf]
  | error e =>
    cases hrem : rem with
    | zero => rw [retryLoop_last_error_step f i cur backoff e hf]
    | succ rem' =>
      rw [retryLoop_error_step f i (rem' + 1) cur backoff e hf (by omega)]
      simp only []
      omega

theorem retryLoop_sleeps {E A : Type} (f : Nat → Except E A) :
    ∀ (remaining i : Nat) (cur backoff : ℚ),
      (retryLoop f i remaining cur backoff).sleeps =
        (List.range ((retryLoop f i remaining cur backoff).calls - 1)).map
          (fun j => cur * backoff ^ j) := by
  intro remaining
  induction remaining with
  | zero => intro i cur backoff; simp [retryLoop]
  | succ rem ih =>
    intro i cur backoff
    cases hf : f i with
    | ok a => rw [retryLoop_ok_step f i rem cur backoff a hf]; simp
    | error e =>
      cases hrem : rem with
      | zero => rw [retryLoop_last_error_step f i cur backoff e hf]; simp
      | succ rem' =>
        rw [retryLoop_error_step f i (rem' + 1) cur backoff e hf (by omega)]
        simp only []
        have htail := ih (i + 1) (cur * backoff) backoff
        rw [hrem] at htail
        have hcalls := retryLoop_calls_pos f (i + 1) rem' (cur * backoff) backoff
        rw [htail]
        rw [show (retryLoop f (i + 1) (rem' + 1) (cur * backoff) backoff).calls + 1 - 1 =
          ((retryLoop f (i + 1) (rem' + 1) (cur * backoff) backoff).calls - 1) + 1 by omega]
        rw [List.range_succ_eq_map]
        simp only [List.map_cons, pow_zero, mul_one, List.map_map]
        congr 1
        apply List.map_congr_left
        intro j hj
        simp only [Function.comp_apply, pow_succ]
        ring

/-- C7.  `retry_async` makes at most `config.max_attempts` calls; if
the calls before index `j` all raise and call `j` returns a value,
that value is returned after exactly `j + 1` calls (no further call is
made); if every call raises (and there is at least one attempt), the
exception of the final attempt is re-raised after exactly
`max_attempts` calls; and the delays slept between attempts are
`delay, delay*backoff_factor, delay*backoff_factor^2, …` — each retry
delay is the previous one multiplied by `config.backoff_factor`,
starting at `config.delay`. -/
theorem retry_async_spec {E A : Type} (f : Nat → Except E A)
    (config : RetryConfig) :
    (retry_async f config).calls ≤ config.max_attempts ∧
    (∀ j a, j < config.max_attempts → (∀ l, l < j → (f l).isOk = false) →
      f j = .ok a →
      (retry_async f config).result = some (.ok a) ∧
        (retry_async f config).calls = j + 1) ∧
    (1 ≤ config.max_attempts →
      (∀ l, l < config.max_attempts → (f l).isOk = false) →
      ∃ e, f (config.max_attempts - 1) = .error e ∧
        (retry_async f config).result = some (.error e) ∧
        (retry_async f config).calls = config.max_attempts) ∧
    (retry_async f config).sleeps =
      (List.range ((retry_async f config).calls - 1)).map
        (fun j => config.delay * config.backoff_factor ^ j) := by
  refine ⟨retryLoop_calls_le f config.max_attempts 0 config.delay
      config.backoff_factor, ?_, ?_,
    retryLoop_sleeps f config.max_attempts 0 config.delay config.backoff_factor⟩
  · intro j a hj hfail hok
    exact retryLoop_first_ok f config.max_attempts 0 config.delay
      config.backoff_factor j a hj (by simpa using hfail) (by simpa using hok)
  · intro hpos hfail
    have := retryLoop_all_fail f config.max_attempts 0 config.delay
      config.backoff_factor hpos (by simpa using hfail)
    simpa using this

/-- The wrapped callable used by the C7 witness: raises on the first
call, returns 7 on the second. -/
def retryProbe : Nat → Except String Nat :=
  fun i => if i = 0 then .error "first call fails" else .ok 7

/-- The retry configuration used by the C7 witness. -/
def probeConfig : RetryConfig :=
  { max_attempts := 3, delay := 1, backoff_factor := 2 }

/-- Witness for C7: with three allowed attempts, a failure then a
success, the run returns the success after exactly two calls. -/
theorem retry_async_spec_witness :
    (retry_async retryProbe probeConfig).calls ≤ probeConfig.max_attempts ∧
    ((retry_async retryProbe probeConfig).result = some (.ok 7) ∧
      (retry_async retryProbe probeConfig).calls = 1 + 1) ∧
    (retry_async retryProbe probeConfig).sleeps =
      (List.range ((retry_async retryProbe probeConfig).calls - 1)).map
        (fun j => probeConfig.delay * probeConfig.backoff_factor ^ j) :=
  ⟨(retry_async_spec retryProbe probeConfig).1,
   (retry_async_spec retryProbe probeConfig).2.1 1 7 (by decide)
     (by
       intro l hl
       have hl0 : l = 0 := by omega
       subst hl0
       decide)
     rfl,
   (retry_async_spec retryProbe probeConfig).2.2.2⟩

/-! ## `AgentBuilder` (agent_builder.py)

`DynamicAgent.__init__` stores the constructor arguments and a
`config` dictionary; `BaseAgent.__init__` resolves
`model or settings.default_model` (base_agent.py line 28).  The agent
framework object (`pydantic_ai.Agent`) is external and carries no
state relevant to the round-trip claim, so it is not modelled.
`_save_agent_config` writes `agent.config` as JSON into
`generated/agents/<name>.json`; the directory is modelled as an
association list from file stem to stored configuration (the JSON
round-trip of these string/list-of-flat-dict values is lossless). -/

/-- The four dependency classes known to the builder
(core/dependencies.py). -/
inductive DepsType where
  | baseDeps | chatDeps | researchDeps | dataDeps
deriving DecidableEq

/-- `deps_type.__name__`. -/
def DepsType.name : DepsType → String
  | .baseDeps => "BaseDependencies"
  | .chatDeps => "ChatDependencies"
  | .researchDeps => "ResearchDependencies"
  | .dataDeps => "DataDependencies"

/-- The four output model classes known to the builder
(core/models.py). -/
inductive OutputType where
  | agentResult | chatResponse | researchResult | analysisResult
deriving DecidableEq

/-- `output_type.__name__`. -/
def OutputType.name : OutputType → String
  | .agentResult => "AgentResult"
  | .chatResponse => "ChatResponse"
  | .researchResult => "ResearchResult"
  | .analysisResult => "AnalysisResult"

/-- `deps_type_map.get(config["deps_type"], BaseDependencies)` of
`load_agent` (agent_builder.py lines 431–436, 449). -/
def depsFromName (s : String) : DepsType :=
  if s = "BaseDependencies" then .baseDeps
  else if s = "ChatDependencies" then .chatDeps
  else if s = "ResearchDependencies" then .researchDeps
  else if s = "DataDependencies" then .dataDeps
  else .baseDeps

/-- `output_type_map.get(config["output_type"], AgentResult)` of
`load_agent` (agent_builder.py lines 438–443, 450). -/
def outputFromName (s : String) : OutputType :=
  if s = "AgentResult" then .agentResult
  else if s = "ChatResponse" then .chatResponse
  else if s = "ResearchResult" then .researchResult
  else if s = "AnalysisResult" then .analysisResult
  else .agentResult

/-- One tool descriptor dictionary (name, description, type,
parameters), as built by `_create_tool_config` /
`_create_custom_tool`. -/
structure ToolConfig where
  name : String
  description : String
  ttype : String
  parameters : List String
deriving DecidableEq

/-- The `agent.config` dictionary stored by `DynamicAgent.__init__`
(agent_builder.py lines 44–52). -/
structure AgentConfig where
  name : String
  instructions : String
  model : String
  deps_type : String
  output_type : String
  tools : List ToolConfig
  created_at : String
deriving DecidableEq

/-- Python `x or default` on an optional string: `None` and the empty
string are falsy. -/
def pyOrStr (m : Option String) (d : String) : String :=
  match m with
  | none => d
  | some s => if s = "" then d else s

/-- `settings.default_model` (config/settings.py line 16). -/
def defaultModel : String := "openai:gpt-4o"

/-- A `DynamicAgent` as observable state: constructor-stored
attributes (`BaseAgent.__init__` resolves `self.model`) plus the
`config` dictionary. -/
structure DynamicAgent where
  name : String
  instructions : String
  model : String
  deps_type : DepsType
  output_type : OutputType
  custom_tools : List ToolConfig
  config : AgentConfig
deriving DecidableEq

/-- `DynamicAgent(name, instructions, model, deps_type, output_type,
tools)` constructed at time `now` (agent_builder.py lines 24–52 with
base_agent.py lines 27–31): `custom_tools = tools or []`,
`self.model = model or settings.default_model`, and `config` records
`model or "openai:gpt-4o"` and the type names. -/
def mkDynamicAgent (name instructions : String) (model : Option String)
    (deps : DepsType) (output : OutputType)
    (tools : Option (List ToolConfig)) (now : String) : DynamicAgent :=
  let custom := match tools with
    | none => []
    | some ts => ts
  { name := name
    instructions := instructions
    model := pyOrStr model defaultModel
    deps_type := deps
    output_type := output
    custom_tools := custom
    config :=
      { name := name
        instructions := instructions
        model := pyOrStr model "openai:gpt-4o"
        deps_type := deps.name
        output_type := output.name
        tools := custom
        created_at := now } }

/-- The `generated/agents` directory: file stem `name` maps to the
JSON-stored configuration. -/
def AgentsDir : Type := List (String × AgentConfig)

/-- `AgentBuilder._save_agent_config` (agent_builder.py lines
408–417): writes `agent.config` to `<agent.name>.json`, overwriting
any previous file. -/
def save_agent_config (files : AgentsDir) (agent : DynamicAgent) : AgentsDir :=
  setAssoc files agent.name agent.config

/-- `AgentBuilder.load_agent` (agent_builder.py lines 419–460):
returns `None` when the file does not exist, otherwise rebuilds a
`DynamicAgent` from the stored configuration at load time `now`. -/
def load_agent (files : AgentsDir) (agent_name : String) (now : String) :
    Option DynamicAgent :=
  match alookup files agent_name with
  | none => none
  | some config =>
    some (mkDynamicAgent config.name config.instructions (some config.model)
      (depsFromName config.deps_type) (outputFromName config.output_type)
      (some config.tools) now)

/-- C3.  Saving then loading is a round-trip: for every constructor
input (the `deps_type` and `output_type` ranging over exactly the four
known dependency and output classes), after `_save_agent_config`
writes the agent's configuration, `load_agent` on the agent's name
returns an agent with the same name, instructions, (resolved) model,
deps_type, output_type and tools list as the original; only the
`created_at` stamp is the load time. -/
theorem save_load_agent_round_trip (name instructions : String)
    (model : Option String) (deps : DepsType) (output : OutputType)
    (tools : Option (List ToolConfig)) (now now' : String)
    (files : AgentsDir) :
    ∃ loaded,
      load_agent
        (save_agent_config files
          (mkDynamicAgent name instructions model deps output tools now))
        (mkDynamicAgent name instructions model deps output tools now).name
        now' = some loaded ∧
      loaded.name = (mkDynamicAgent name instructions model deps output tools now).name ∧
      loaded.instructions =
        (mkDynamicAgent name instructions model deps output tools now).instructions ∧
      loaded.model = (mkDynamicAgent name instructions model deps output tools now).model ∧
      loaded.deps_type =
        (mkDynamicAgent name instructions model deps output tools now).deps_type ∧
      loaded.output_type =
        (mkDynamicAgent name instructions model deps output tools now).output_type ∧
      loaded.custom_tools =
        (mkDynamicAgent name instructions model deps output tools now).custom_tools := by
  have hlook : alookup
      (save_agent_config files
        (mkDynamicAgent name instructions model deps output tools now))
      (mkDynamicAgent name instructions model deps output tools now).name =
      some (mkDynamicAgent name instructions model deps output tools now).config := by
    unfold save_agent_config
    rw [alookup_setAssoc]
    simp
  have hload : load_agent
      (save_agent_config files
        (mkDynamicAgent name instructions model deps output tools now))
      (mkDynamicAgent name instructions model deps output tools now).name
      now' =
      some (mkDynamicAgent name instructions
        (some (pyOrStr model "openai:gpt-4o"))
        (depsFromName deps.name) (outputFromName output.name)
        (some ((mkDynamicAgent name instructions model deps output tools
          now).custom_tools)) now') := by
    unfold load_agent
    rw [hlook]
    exact rfl
  have hmodel : pyOrStr (some (pyOrStr model "openai:gpt-4o")) defaultModel =
      pyOrStr model defaultModel := by
    unfold pyOrStr defaultModel
    cases model with
    | none => simp
    | some s =>
      by_cases hs : s = ""
      · simp [hs]
      · simp [hs]
  have hdeps : depsFromName deps.name = deps := by
    cases deps <;> rfl
  have houtput : outputFromName output.name = output := by
    cases output <;> rfl
  exact ⟨_, hload, rfl, rfl, hmodel, hdeps, houtput, rfl⟩

/-! ## `AgentPlayground` (playground.py)

The playground state is modelled by its conversation history, the
current agent name, and the registry of available agents (name and
whether the agent is built-in).  Interactive inputs (the chosen
command, wizard results, confirmation answers, the external agent
call's outcome) and clock readings are parameters of the operations.
The only code paths that touch `self.conversation_history` are
`log_interaction` (append), `clear_history` (emptying), and reads. -/

/-- A value stored in a conversation message: a scalar or the nested
`metadata` dictionary. -/
inductive MsgVal where
  | prim (v : Value)
  | dict (fields : List (String × Value))
deriving DecidableEq

/-- One conversation message: the dictionary literal built by
`log_interaction` (playground.py lines 310–316). -/
def Message : Type := List (String × MsgVal)

/-- Playground state relevant to the conversation history. -/
structure PState where
  history : List Message
  current_agent : String
  agents : List (String × Bool)

/-- The message dictionary of `log_interaction`, with its five keys in
source order. -/
def mkMessage (now role content agentName : String)
    (metadata : List (String × Value)) : Message :=
  [("timestamp", .prim (.strV now)), ("role", .prim (.strV role)),
   ("content", .prim (.strV content)), ("agent", .prim (.strV agentName)),
   ("metadata", .dict metadata)]

/-- `AgentPlayground.log_interaction` (playground.py lines 308–317):
appends one message; `agent or self.current_agent` and
`metadata or {}` resolve the optional arguments. -/
def log_interaction (s : PState) (role content : String)
    (agent : Option String) (metadata : Option (List (String × Value)))
    (now : String) : PState :=
  { s with history := s.history ++
      [mkMessage now role content (pyOrStr agent s.current_agent)
        (metadata.getD [])] }

/-- `AgentPlayground.clear_history` (playground.py lines 145–149). -/
def clear_history (s : PState) : PState :=
  { s with history := [] }

/-- `AgentPlayground.switch_agent` (playground.py lines 115–124): on a
known agent, set `current_agent` and log a system message (the log
call happens after the assignment, so the message's `agent` field is
the new agent). -/
def switch_agent (s : PState) (name now : String) : PState :=
  if (alookup s.agents name).isSome then
    log_interaction { s with current_agent := name } "system"
      ("Switched to " ++ name ++ " agent") none none now
  else s

/-- Outcome of the external `agent.run` call inside `send_message`:
a response (extracted text, response type name, execution time) or a
raised exception message. -/
inductive AgentOutcome where
  | ok (text rtype : String) (time : ℚ)
  | err (msg : String)

/-- `AgentPlayground.send_message` (playground.py lines 319–406): logs
the user message, then either the assistant response (with
`execution_time`/`response_type` metadata) or a system error message
(with `error: True` metadata). -/
def send_message (s : PState) (text : String) (outcome : AgentOutcome)
    (now1 now2 : String) : PState :=
  let s1 := log_interaction s "user" text none none now1
  match outcome with
  | .ok rtext rtype t =>
    log_interaction s1 "assistant" rtext (some s1.current_agent)
      (some [("execution_time", .floatV t), ("response_type", .strV rtype)])
      now2
  | .err msg =>
    log_interaction s1 "system" ("Error: " ++ msg) (some s1.current_agent)
      (some [("error", .boolV true)]) now2

/-- Removal of a key from the agent registry (`del self.agents[...]`). -/
def removeAssoc {α : Type} (l : List (String × α)) (k : String) :
    List (String × α) :=
  l.filter fun p => p.1 ≠ k

/-- `AgentPlayground.create_agent_interactive` (playground.py lines
207–232): on a successful wizard result the new agent is registered
and the user may switch to it. -/
def create_agent_op (s : PState) (result : Option String) (doSwitch : Bool)
    (now : String) : PState :=
  match result with
  | none => s
  | some aname =>
    let s1 := { s with agents := setAssoc s.agents aname false }
    if doSwitch then switch_agent s1 aname now else s1

/-- `AgentPlayground.load_agent_by_name` (playground.py lines
234–256): no-op when already loaded or when the builder fails;
otherwise registers the agent and optionally switches. -/
def load_agent_op (s : PState) (name : String) (loadOk doSwitch : Bool)
    (now : String) : PState :=
  if (alookup s.agents name).isSome then s
  else if loadOk then
    let s1 := { s with agents := setAssoc s.agents name false }
    if doSwitch then switch_agent s1 name now else s1
  else s

/-- `AgentPlayground.delete_agent_by_name` (playground.py lines
258–283): refuses unknown and built-in agents and unconfirmed
deletions; otherwise switches the current agent away to "chat" if
needed and removes the agent. -/
def delete_agent_op (s : PState) (name : String) (confirm : Bool) : PState :=
  match alookup s.agents name with
  | none => s
  | some builtin =>
    if builtin then s
    else if confirm then
      let s1 := if s.current_agent = name then
        { s with current_agent := "chat" } else s
      { s1 with agents := removeAssoc s1.agents name }
    else s

/-- `AgentPlayground.show_agent_detailed_info` (playground.py lines
293–306): for a known built-in agent it sets `current_agent` before
showing the info; otherwise it only prints. -/
def agent_info_op (s : PState) (name : String) : PState :=
  match alookup s.agents name with
  | some true => { s with current_agent := name }
  | _ => s

/-- One iteration of the playground REPL dispatch loop (playground.py
lines 416–489): each slash command with the interactive inputs it
consumes, or a free-text message sent to the current agent. -/
inductive POp where
  | help
  | listAgents
  | switchCmd (name now : String)
  | showHistory
  | clear
  | info
  | observe
  | profile
  | exportCmd
  | createCmd (result : Option String) (doSwitch : Bool) (now : String)
  | templates
  | createdCmd
  | loadCmd (name : String) (loadOk doSwitch : Bool) (now : String)
  | deleteCmd (name : String) (confirm : Bool)
  | agentInfoCmd (name : String)
  | message (text : String) (outcome : AgentOutcome) (now1 now2 : String)
  | quit

/-- State effect of one dispatch-loop iteration.  `help`, `agents`,
`history`, `info`, `observe`, `profile`, `export`, `templates`,
`created` and `quit` only read the state or toggle the loop-local
observe flag. -/
def pstep : POp → PState → PState
  | .help, s => s
  | .listAgents, s => s
  | .switchCmd name now, s => switch_agent s name now
  | .showHistory, s => s
  | .clear, s => clear_history s
  | .info, s => s
  | .observe, s => s
  | .profile, s => s
  | .exportCmd, s => s
  | .createCmd result doSwitch now, s => create_agent_op s result doSwitch now
  | .templates, s => s
  | .createdCmd, s => s
  | .loadCmd name loadOk doSwitch now, s => load_agent_op s name loadOk doSwitch now
  | .deleteCmd name confirm, s => delete_agent_op s name confirm
  | .agentInfoCmd name, s => agent_info_op s name
  | .message text outcome now1 now2, s => send_message s text outcome now1 now2
  | .quit, s => s

/-- A message dictionary carrying the `role`, `content` and
`timestamp` keys (plus `agent` and `metadata`). -/
def hasRCT (m : Message) : Prop :=
  (alookup m "role").isSome = true ∧ (alookup m "content").isSome = true ∧
  (alookup m "timestamp").isSome = true ∧ (alookup m "agent").isSome = true ∧
  (alookup m "metadata").isSome = true

theorem hasRCT_mkMessage (now role content agentName : String)
    (metadata : List (String × Value)) :
    hasRCT (mkMessage now role content agentName metadata) := by
  unfold hasRCT mkMessage
  refine ⟨?_, ?_, ?_, ?_, ?_⟩ <;> simp [alookup]

theorem log_interaction_history (s : PState) (role content : String)
    (agent : Option String) (metadata : Option (List (String × Value)))
    (now : String) :
    (log_interaction s role content agent metadata now).history =
      s.history ++ [mkMessage now role content (pyOrStr agent s.current_agent)
        (metadata.getD [])] := rfl

theorem switch_agent_appends (s : PState) (name now : String) :
    ∃ new, (switch_agent s name now).history = s.history ++ new ∧
      ∀ m ∈ new, hasRCT m := by
  unfold switch_agent
  by_cases h : (alookup s.agents name).isSome
  · refine ⟨_, by rw [if_pos h]; exact log_interaction_history _ _ _ _ _ _, ?_⟩
    intro m hm
    rw [List.mem_singleton] at hm
    subst hm
    exact hasRCT_mkMessage _ _ _ _ _
  · exact ⟨[], by rw [if_neg h]; simp, by simp⟩

theorem log_log_history (s : PState) (r1 c1 : String) (a1 : Option String)
    (m1 : Option (List (String × Value))) (t1 : String) (r2 c2 : String)
    (a2 : Option String) (m2 : Option (List (String × Value))) (t2 : String) :
    (log_interaction (log_interaction s r1 c1 a1 m1 t1) r2 c2 a2 m2 t2).history =
      s.history ++
        [mkMessage t1 r1 c1 (pyOrStr a1 s.current_agent) (m1.getD []),
         mkMessage t2 r2 c2
           (pyOrStr a2 (log_interaction s r1 c1 a1 m1 t1).current_agent)
           (m2.getD [])] := by
  rw [log_interaction_history, log_interaction_history, List.append_assoc]
  rfl

theorem send_message_appends (s : PState) (text : String) (o : AgentOutcome)
    (now1 now2 : String) :
    ∃ new, (send_message s text o now1 now2).history = s.history ++ new ∧
      ∀ m ∈ new, hasRCT m := by
  cases o with
  | ok rtext rtype t =>
    refine ⟨_, log_log_history s "user" text none none now1 "assistant" rtext
      (some (log_interaction s "user" text none none now1).current_agent)
      (some [("execution_time", Value.floatV t),
             ("response_type", Value.strV rtype)]) now2, ?_⟩
    intro m hm
    rcases List.mem_cons.mp hm with hm | hm
    · subst hm
      exact hasRCT_mkMessage _ _ _ _ _
    · rw [List.mem_singleton] at hm
      subst hm
      exact hasRCT_mkMessage _ _ _ _ _
  | err msg =>
    refine ⟨_, log_log_history s "user" text none none now1 "system"
      ("Error: " ++ msg)
      (some (log_interaction s "user" text none none now1).current_agent)
      (some [("error", Value.boolV true)]) now2, ?_⟩
    intro m hm
    rcases List.mem_cons.mp hm with hm | hm
    · subst hm
      exact hasRCT_mkMessage _ _ _ _ _
    · rw [List.mem_singleton] at hm
      subst hm
      exact hasRCT_mkMessage _ _ _ _ _

/-- C8.  The conversation history is append-only except for
`clear_history`: `clear_history` empties it, and every other
playground operation leaves the existing messages in place and in
order, appending only messages that carry the `role`, `content` and
`timestamp` keys (together with `agent` and `metadata`), built by
`log_interaction`. -/
theorem playground_history_append_only (op : POp) (s : PState) :
    (op = POp.clear → (pstep op s).history = []) ∧
    (op ≠ POp.clear →
      ∃ new, (pstep op s).history = s.history ++ new ∧ ∀ m ∈ new, hasRCT m) := by
  constructor
  · intro h
    subst h
    rfl
  · intro hne
    cases op with
    | help => exact ⟨[], by simp [pstep], by simp⟩
    | listAgents => exact ⟨[], by simp [pstep], by simp⟩
    | switchCmd name now => exact switch_agent_appends s name now
    | showHistory => exact ⟨[], by simp [pstep], by simp⟩
    | clear => exact absurd rfl hne
    | info => exact ⟨[], by simp [pstep], by simp⟩
    | observe => exact ⟨[], by simp [pstep], by simp⟩
    | profile => exact ⟨[], by simp [pstep], by simp⟩
    | exportCmd => exact ⟨[], by simp [pstep], by simp⟩
    | createCmd result doSwitch now =>
      cases result with
      | none => exact ⟨[], by simp [pstep, create_agent_op], by simp⟩
      | some aname =>
        cases doSwitch with
        | false => exact ⟨[], by simp [pstep, create_agent_op], by simp⟩
        | true =>
          obtain ⟨new, hnew, hall⟩ := switch_agent_appends
            { s with agents := setAssoc s.agents aname false } aname now
          exact ⟨new, hnew, hall⟩
    | templates => exact ⟨[], by simp [pstep], by simp⟩
    | createdCmd => exact ⟨[], by simp [pstep], by simp⟩
    | loadCmd name loadOk doSwitch now =>
      cases hp : (alookup s.agents name).isSome with
      | true => exact ⟨[], by simp [pstep, load_agent_op, hp], by simp⟩
      | false =>
        cases loadOk with
        | false => exact ⟨[], by simp [pstep, load_agent_op, hp], by simp⟩
        | true =>
          cases doSwitch with
          | false => exact ⟨[], by simp [pstep, load_agent_op, hp], by simp⟩
          | true =>
            obtain ⟨new, hnew, hall⟩ := switch_agent_appends
              { s with agents := setAssoc s.agents name false } name now
            refine ⟨new, ?_, hall⟩
            simp only [pstep, load_agent_op, hp, Bool.false_eq_true, if_false,
              if_true]
            exact hnew
    | deleteCmd name confirm =>
      refine ⟨[], ?_, by simp⟩
      rw [List.append_nil]
      simp only [pstep, delete_agent_op]
      cases halo : alookup s.agents name with
      | none => rfl
      | some builtin =>
        cases builtin with
        | true => rfl
        | false =>
          cases confirm with
          | false => rfl
          | true =>
            by_cases hcur : s.current_agent = name <;> simp [hcur]
    | agentInfoCmd name =>
      refine ⟨[], ?_, by simp⟩
      rw [List.append_nil]
      simp only [pstep, agent_info_op]
      cases halo : alookup s.agents name with
      | none => rfl
      | some builtin => cases builtin with
        | true => rfl
        | false => rfl
    | message text outcome now1 now2 => exact send_message_appends s text outcome now1 now2
    | quit => exact ⟨[], by simp [pstep], by simp⟩

/-- A concrete playground state used by the C8 witness: empty history,
only the built-in chat agent. -/
def probeState : PState :=
  { history := [], current_agent := "chat", agents := [("chat", true)] }

/-- A concrete playground state with one logged message, used by the
C8 witness for `clear_history`. -/
def probeStateLogged : PState :=
  { history := [mkMessage "t0" "user" "old" "chat" []],
    current_agent := "chat", agents := [("chat", true)] }

/-- Witness for C8: a concrete free-text message appends to a concrete
state's history, and clearing a concrete state empties it. -/
theorem playground_history_append_only_witness :
    (∃ new, (pstep (POp.message "hi" (AgentOutcome.ok "hello" "ChatResponse" 1)
        "t1" "t2") probeState).history = probeState.history ++ new ∧
      ∀ m ∈ new, hasRCT m) ∧
    (pstep POp.clear probeStateLogged).history = [] :=
  ⟨(playground_history_append_only
      (POp.message "hi" (AgentOutcome.ok "hello" "ChatResponse" 1) "t1" "t2")
      probeState).2 (by simp),
   (playground_history_append_only POp.clear probeStateLogged).1 rfl⟩
